import Mathlib

/-!
Verification of the camera-normalization utility in
`amethyst_utils/src/ortho_camera.rs`.

The Rust code computes orthographic camera bounds in IEEE-754 binary32
(`f32`) arithmetic.  We embed `f32` shallowly: a value is a bit-level
triple (sign, biased exponent, mantissa), and the arithmetic operations
round exact rational results to nearest, ties to even, exactly as IEEE-754
prescribes for the operations the source uses (negation, addition,
subtraction, division, ordered comparisons and equality).  Exact
intermediate values are kept as unnormalized integer fractions so that
every operation is executable by kernel reduction.

An idealized model of the same formulas over exact rational arithmetic
(`lossy_x_exact` and friends) sits next to the bit-accurate one; the
algebraic invariants of the offset computation hold there, while the
bit-accurate model yields concrete floating-point counterexamples to the
same invariants stated over `f32`.
-/

set_option maxRecDepth 40000

namespace OrthoCam

/-- Bit-level representation of an IEEE-754 binary32 value:
sign bit, biased exponent (0..255) and 23-bit mantissa.
`ex = 255` encodes infinities (`man = 0`) and NaNs (`man ≠ 0`);
`ex = 0` encodes signed zeros and subnormals. -/
structure F32 where
  sign : Bool
  ex : Nat
  man : Nat
deriving DecidableEq

namespace F32

def isNan (x : F32) : Bool := x.ex == 255 && !(x.man == 0)

def isInf (x : F32) : Bool := x.ex == 255 && x.man == 0

def isFinite (x : F32) : Bool := !(x.ex == 255)

def isZero (x : F32) : Bool := x.ex == 0 && x.man == 0

/-- The quiet NaN produced by invalid operations. -/
def qnan : F32 := ⟨false, 255, 1⟩

def infty (s : Bool) : F32 := ⟨s, 255, 0⟩

def zero (s : Bool) : F32 := ⟨s, 0, 0⟩

/-- Exact rational scratch value: `num / den` with `den > 0`.
Never normalized, so all arithmetic on it is plain integer arithmetic. -/
structure Exact where
  num : Int
  den : Nat
deriving DecidableEq

/-- Exact value of a finite `F32`: `m * 2 ^ (e - 150)` where `m` is the
mantissa with the implicit leading bit added for normal numbers. -/
def toExact (x : F32) : Exact :=
  let m : Nat := if x.ex == 0 then x.man else x.man + 2 ^ 23
  let e : Nat := if x.ex == 0 then 1 else x.ex
  let mag : Int := Int.ofNat (m * 2 ^ e)
  ⟨if x.sign then -mag else mag, 2 ^ 150⟩

def Exact.addE (a b : Exact) : Exact :=
  ⟨a.num * Int.ofNat b.den + b.num * Int.ofNat a.den, a.den * b.den⟩

def Exact.divE (a b : Exact) : Exact :=
  ⟨(if b.num < 0 then -(a.num * Int.ofNat b.den) else a.num * Int.ofNat b.den),
   a.den * b.num.natAbs⟩

def Exact.ltE (a b : Exact) : Bool :=
  decide (a.num * Int.ofNat b.den < b.num * Int.ofNat a.den)

def Exact.eqE (a b : Exact) : Bool :=
  decide (a.num * Int.ofNat b.den = b.num * Int.ofNat a.den)

/-- Fuel-bounded floor of the base-2 logarithm (`log2p fuel n = ⌊log₂ n⌋`
for `1 ≤ n < 2 ^ fuel`). -/
def log2p : Nat → Nat → Nat
  | 0, _ => 0
  | fuel + 1, n => if n ≤ 1 then 0 else log2p fuel (n / 2) + 1

/-- Floor of `log₂ (a / b)` for positive naturals `a`, `b` with
`b ≤ a * 2 ^ 900` (always true for the magnitudes reaching the rounder). -/
def floorLog2 (a b : Nat) : Int :=
  Int.ofNat (log2p 2000 (a * 2 ^ 900 / b)) - 900

/-- Round the positive rational `a / b` to the binary32 grid, nearest,
ties to even.  Returns `(n, u)` with rounded value `n * 2 ^ u`,
`n ≤ 2 ^ 24`, and `u ≥ -149`. -/
def roundPosPair (a b : Nat) : Nat × Int :=
  let E := floorLog2 a b
  let u : Int := max (E - 23) (-149)
  let tn : Nat := if u ≤ 0 then a * 2 ^ (-u).toNat else a
  let td : Nat := if u ≤ 0 then b else b * 2 ^ u.toNat
  let n0 := tn / td
  let rem := tn % td
  let n :=
    if td < 2 * rem then n0 + 1
    else if 2 * rem < td then n0
    else if n0 % 2 == 0 then n0 else n0 + 1
  (n, u)

/-- Pack a rounded magnitude `n * 2 ^ u` (output of `roundPosPair`) into
bit-level form, overflowing to infinity past the largest finite value. -/
def encode (s : Bool) (n : Nat) (u : Int) : F32 :=
  if n == 0 then zero s
  else
    let n1 := if n == 2 ^ 24 then 2 ^ 23 else n
    let u1 := if n == 2 ^ 24 then u + 1 else u
    if 2 ^ 23 ≤ n1 then
      let e : Int := u1 + 150
      if 255 ≤ e then infty s else ⟨s, e.toNat, n1 - 2 ^ 23⟩
    else ⟨s, 0, n1⟩

/-- Round a nonzero exact rational to binary32, nearest, ties to even. -/
def roundE (q : Exact) : F32 :=
  if q.num < 0 then
    let p := roundPosPair q.num.natAbs q.den
    encode true p.1 p.2
  else
    let p := roundPosPair q.num.natAbs q.den
    encode false p.1 p.2

/-- The binary32 value of the source literal `num / den`
(Rust literals round to nearest, ties to even). -/
def lit (num : Int) (den : Nat) : F32 :=
  if num == 0 then zero false else roundE ⟨num, den⟩

def neg (x : F32) : F32 := ⟨!x.sign, x.ex, x.man⟩

/-- IEEE-754 binary32 addition, round to nearest, ties to even.
An exactly zero sum of nonzero operands is `+0` in this rounding mode;
`(-0) + (-0)` is `-0`. -/
def add (x y : F32) : F32 :=
  if isNan x || isNan y then qnan
  else if isInf x && isInf y then (if x.sign == y.sign then x else qnan)
  else if isInf x then x
  else if isInf y then y
  else
    let s := Exact.addE (toExact x) (toExact y)
    if s.num == 0 then zero (x.sign && y.sign) else roundE s

def sub (x y : F32) : F32 := add x (neg y)

/-- IEEE-754 binary32 division, round to nearest, ties to even. -/
def div (x y : F32) : F32 :=
  if isNan x || isNan y then qnan
  else if isInf x && isInf y then qnan
  else if isZero x && isZero y then qnan
  else if isInf x then infty (x.sign != y.sign)
  else if isInf y then zero (x.sign != y.sign)
  else if isZero y then infty (x.sign != y.sign)
  else if isZero x then zero (x.sign != y.sign)
  else roundE (Exact.divE (toExact x) (toExact y))

/-- IEEE-754 ordered less-than: false whenever an operand is NaN. -/
def blt (x y : F32) : Bool :=
  if isNan x || isNan y then false
  else if isInf x && isInf y then x.sign && !y.sign
  else if isInf x then x.sign
  else if isInf y then !y.sign
  else Exact.ltE (toExact x) (toExact y)

def bgt (x y : F32) : Bool := blt y x

/-- IEEE-754 equality: false whenever an operand is NaN; `-0 = +0`. -/
def beq (x y : F32) : Bool :=
  if isNan x || isNan y then false
  else if isInf x && isInf y then x.sign == y.sign
  else if isInf x || isInf y then false
  else Exact.eqE (toExact x) (toExact y)

/-- Componentwise IEEE equality of two 4-tuples of offsets. -/
def beq4 (p q : F32 × F32 × F32 × F32) : Bool :=
  beq p.1 q.1 && beq p.2.1 q.2.1 && beq p.2.2.1 q.2.2.1 && beq p.2.2.2 q.2.2.2

end F32

/-- Embeds `amethyst_core::Axis2` (the two axes a camera can stretch on). -/
inductive Axis2
  | X
  | Y
deriving DecidableEq

/-- Embeds the `CameraNormalizeMode` enum from `ortho_camera.rs`. -/
inductive CameraNormalizeMode
  | Lossy (stretch_direction : Axis2)
  | Shrink
deriving DecidableEq

namespace CameraNormalizeMode

/-- Embeds `CameraNormalizeMode::lossy_x`:
`let offset = (aspect_ratio - 1.0) / 2.0; (-offset, 1.0 + offset, 0.0, 1.0)`. -/
def lossy_x (aspect_ratio : F32) : F32 × F32 × F32 × F32 :=
  let offset := F32.div (F32.sub aspect_ratio (F32.lit 1 1)) (F32.lit 2 1)
  (F32.neg offset, F32.add (F32.lit 1 1) offset, F32.lit 0 1, F32.lit 1 1)

/-- Embeds `CameraNormalizeMode::lossy_y`:
`let offset = (1.0 / aspect_ratio - 1.0) / 2.0; (0.0, 1.0, -offset, 1.0 + offset)`. -/
def lossy_y (aspect_ratio : F32) : F32 × F32 × F32 × F32 :=
  let offset := F32.div (F32.sub (F32.div (F32.lit 1 1) aspect_ratio) (F32.lit 1 1)) (F32.lit 2 1)
  (F32.lit 0 1, F32.lit 1 1, F32.neg offset, F32.add (F32.lit 1 1) offset)

/-- Embeds `CameraNormalizeMode::camera_offsets`: dispatch on the mode,
with the `Shrink` mode comparing the aspect ratio against `1.0`. -/
def camera_offsets (m : CameraNormalizeMode) (aspect_ratio : F32) : F32 × F32 × F32 × F32 :=
  match m with
  | .Lossy d =>
    match d with
    | .X => lossy_x aspect_ratio
    | .Y => lossy_y aspect_ratio
  | .Shrink =>
    if F32.bgt aspect_ratio (F32.lit 1 1) = true then lossy_x aspect_ratio
    else if F32.blt aspect_ratio (F32.lit 1 1) = true then lossy_y aspect_ratio
    else (F32.lit 0 1, F32.lit 1 1, F32.lit 0 1, F32.lit 1 1)

end CameraNormalizeMode

/-- Embeds the `NormalOrthoCamera` component (a mode holder). -/
structure NormalOrthoCamera where
  mode : CameraNormalizeMode
deriving DecidableEq

/-- Embeds `NormalOrthoCamera::camera_offsets`, a delegation to the mode. -/
def NormalOrthoCamera.camera_offsets (c : NormalOrthoCamera) (ratio : F32) :
    F32 × F32 × F32 × F32 :=
  c.mode.camera_offsets ratio

/-- Embeds `cgmath::Ortho`: the six scalar fields of an orthographic
projection descriptor, per the spec data model. -/
structure Ortho where
  left : F32
  right : F32
  bottom : F32
  top : F32
  near : F32
  far : F32
deriving DecidableEq

/-- Modelled from the spec: the camera projection component.  The spec
describes the produced projection as an orthographic descriptor with six
scalar fields, so the projection is kept in that form. -/
structure Camera where
  proj : Ortho
deriving DecidableEq

/-- Modelled from the spec: the `ScreenDimensions` resource of the
windowing collaborator, exposing width and height. -/
structure ScreenDimensions where
  width : F32
  height : F32
deriving DecidableEq

/-- Modelled from the spec: `current_aspect = window_width / window_height`,
computed in `f32`. -/
def ScreenDimensions.aspect_ratio (d : ScreenDimensions) : F32 :=
  F32.div d.width d.height

/-- Embeds the `NormalOrthoCameraSystem` struct: its only state is the
cached last-seen aspect ratio. -/
structure NormalOrthoCameraSystem where
  aspect_ratio_cache : F32
deriving DecidableEq

/-- The body of the recompute loop of `NormalOrthoCameraSystem::run`:
for every entity present in both storages (the ECS join, modelled from
the spec as entities present in both collections) the projection is
replaced by the orthographic projection built from the offsets of the
entity with near plane `0.1` and far plane `1000.0`; entities without
both components are untouched. -/
def updateCameras (aspect : F32) (cameras : Nat → Option Camera)
    (ortho_cameras : Nat → Option NormalOrthoCamera) : Nat → Option Camera :=
  fun e =>
    match cameras e, ortho_cameras e with
    | some camera, some ortho_camera =>
      let offsets := ortho_camera.camera_offsets aspect
      some { camera with proj :=
        { left := offsets.1, right := offsets.2.1,
          bottom := offsets.2.2.1, top := offsets.2.2.2,
          near := F32.lit 1 10, far := F32.lit 1000 1 } }
    | some camera, none => some camera
    | none, _ => none

/-- Embeds `NormalOrthoCameraSystem::run`: read the aspect ratio, compare
with the cache using IEEE inequality, and on a difference store the new
aspect ratio and rewrite every joined camera.  Returns the updated system
state and the updated camera storage. -/
def NormalOrthoCameraSystem.run (sys : NormalOrthoCameraSystem)
    (dimensions : ScreenDimensions)
    (cameras : Nat → Option Camera)
    (ortho_cameras : Nat → Option NormalOrthoCamera) :
    NormalOrthoCameraSystem × (Nat → Option Camera) :=
  let aspect := dimensions.aspect_ratio
  if F32.beq aspect sys.aspect_ratio_cache = false then
    (⟨aspect⟩, updateCameras aspect cameras ortho_cameras)
  else (sys, cameras)

/-- Iterated scheduler ticks of the system: each tick reads the screen
dimensions of that frame and threads the system state and the camera
storage; the ortho-camera storage is read-only. -/
def runTicks : List ScreenDimensions → NormalOrthoCameraSystem →
    (Nat → Option Camera) → (Nat → Option NormalOrthoCamera) →
    NormalOrthoCameraSystem × (Nat → Option Camera)
  | [], sys, cameras, _ => (sys, cameras)
  | d :: rest, sys, cameras, ortho_cameras =>
    let p := sys.run d cameras ortho_cameras
    runTicks rest p.1 p.2 ortho_cameras

/-- The `lossy_x` formula of the source over exact rational arithmetic,
for comparison with the bit-accurate model. -/
def lossy_x_exact (aspect_ratio : ℚ) : ℚ × ℚ × ℚ × ℚ :=
  let offset := (aspect_ratio - 1) / 2
  (-offset, 1 + offset, 0, 1)

/-- The `lossy_y` formula of the source over exact rational arithmetic. -/
def lossy_y_exact (aspect_ratio : ℚ) : ℚ × ℚ × ℚ × ℚ :=
  let offset := (1 / aspect_ratio - 1) / 2
  (0, 1, -offset, 1 + offset)

/-- The `camera_offsets` dispatch of the source over exact rational
arithmetic. -/
def camera_offsets_exact (m : CameraNormalizeMode) (aspect_ratio : ℚ) : ℚ × ℚ × ℚ × ℚ :=
  match m with
  | .Lossy d =>
    match d with
    | .X => lossy_x_exact aspect_ratio
    | .Y => lossy_y_exact aspect_ratio
  | .Shrink =>
    if 1 < aspect_ratio then lossy_x_exact aspect_ratio
    else if aspect_ratio < 1 then lossy_y_exact aspect_ratio
    else (0, 1, 0, 1)

/-- A concrete system whose cache holds the default initial value `0.0`. -/
def sysW : NormalOrthoCameraSystem := ⟨F32.zero false⟩

/-- Concrete 2:1 screen dimensions. -/
def dimsW : ScreenDimensions := ⟨F32.lit 2 1, F32.lit 1 1⟩

/-- Concrete degenerate screen dimensions whose aspect ratio is NaN. -/
def dimsNanW : ScreenDimensions := ⟨F32.zero false, F32.zero false⟩

/-- A concrete camera with a unit projection. -/
def camW : Camera :=
  ⟨⟨F32.lit 0 1, F32.lit 1 1, F32.lit 0 1, F32.lit 1 1, F32.lit 1 10, F32.lit 1000 1⟩⟩

/-- A concrete camera storage: entities 0 and 1 have cameras. -/
def camsW : Nat → Option Camera :=
  fun e => if e == 0 || e == 1 then some camW else none

/-- A concrete ortho-camera storage: only entity 0 opted in. -/
def orthosW : Nat → Option NormalOrthoCamera :=
  fun e => if e == 0 then some ⟨.Shrink⟩ else none

end OrthoCam

namespace OrthoCam

theorem Exact.ltE_asymm (a b : F32.Exact) (h : F32.Exact.ltE a b = true) :
    F32.Exact.ltE b a = false := by
  simp only [F32.Exact.ltE, decide_eq_true_eq] at h
  simpa [F32.Exact.ltE] using Int.lt_asymm h

theorem Exact.eqE_not_ltE (a b : F32.Exact) (h : F32.Exact.eqE a b = true) :
    F32.Exact.ltE a b = false ∧ F32.Exact.ltE b a = false := by
  simp only [F32.Exact.eqE, decide_eq_true_eq] at h
  refine ⟨?_, ?_⟩ <;> simp only [F32.Exact.ltE, decide_eq_false_iff_not, not_lt]
  · exact le_of_eq h.symm
  · exact le_of_eq h

theorem Exact.eqE_refl (a : F32.Exact) : F32.Exact.eqE a a = true := by
  simp [F32.Exact.eqE]

/-- IEEE strict order is asymmetric. -/
theorem F32.blt_asymm (x y : F32) (h : F32.blt x y = true) : F32.blt y x = false := by
  unfold F32.blt at h ⊢
  by_cases hnx : x.isNan = true <;> by_cases hny : y.isNan = true <;>
    by_cases hix : x.isInf = true <;> by_cases hiy : y.isInf = true <;>
      simp_all <;>
        first
          | (cases hsx : x.sign <;> cases hsy : y.sign <;> simp_all)
          | exact Exact.ltE_asymm _ _ h

/-- IEEE equality excludes strict order in both directions. -/
theorem F32.beq_not_blt (x y : F32) (h : F32.beq x y = true) :
    F32.blt x y = false ∧ F32.blt y x = false := by
  unfold F32.beq at h
  unfold F32.blt
  by_cases hnx : x.isNan = true <;> by_cases hny : y.isNan = true <;>
    by_cases hix : x.isInf = true <;> by_cases hiy : y.isInf = true <;>
      simp_all <;>
        first
          | (cases hsx : x.sign <;> cases hsy : y.sign <;> simp_all)
          | exact Exact.eqE_not_ltE _ _ h

/-- IEEE equality is reflexive away from NaN. -/
theorem F32.beq_refl (x : F32) (h : F32.isNan x = false) : F32.beq x x = true := by
  unfold F32.beq
  simp [h, Exact.eqE_refl]

/-- A NaN operand makes IEEE equality false. -/
theorem F32.beq_of_nan (x y : F32) (h : F32.isNan x = true) : F32.beq x y = false := by
  unfold F32.beq
  simp [h]

/-- C1: for every aspect ratio `r > 0`, `Shrink.camera_offsets r` equals
`Lossy(X).camera_offsets r` when `r > 1.0`, equals
`Lossy(Y).camera_offsets r` when `r < 1.0`, and equals the unit square
`(0, 1, 0, 1)` when `r == 1.0` (the unit-square branch of the source
returns the tuple directly, without the stretch formulas). -/
theorem claim_C1_shrink_dispatch (r : F32) (_hpos : F32.bgt r (F32.zero false) = true) :
    (F32.bgt r (F32.lit 1 1) = true →
      CameraNormalizeMode.camera_offsets .Shrink r =
        CameraNormalizeMode.camera_offsets (.Lossy .X) r) ∧
    (F32.blt r (F32.lit 1 1) = true →
      CameraNormalizeMode.camera_offsets .Shrink r =
        CameraNormalizeMode.camera_offsets (.Lossy .Y) r) ∧
    (F32.beq r (F32.lit 1 1) = true →
      CameraNormalizeMode.camera_offsets .Shrink r =
        (F32.lit 0 1, F32.lit 1 1, F32.lit 0 1, F32.lit 1 1)) := by
  refine ⟨?_, ?_, ?_⟩
  · intro hgt
    simp [CameraNormalizeMode.camera_offsets, hgt]
  · intro hlt
    have hgt : F32.blt (F32.lit 1 1) r = false := F32.blt_asymm r (F32.lit 1 1) hlt
    simp [CameraNormalizeMode.camera_offsets, F32.bgt, hgt, hlt]
  · intro heq
    obtain ⟨h1, h2⟩ := F32.beq_not_blt r (F32.lit 1 1) heq
    simp [CameraNormalizeMode.camera_offsets, F32.bgt, h1, h2]

/-- Witness for C1 at the concrete aspect ratio `2.0`. -/
theorem claim_C1_witness :
    F32.bgt (F32.lit 2 1) (F32.zero false) = true ∧
    (F32.bgt (F32.lit 2 1) (F32.lit 1 1) = true →
      CameraNormalizeMode.camera_offsets .Shrink (F32.lit 2 1) =
        CameraNormalizeMode.camera_offsets (.Lossy .X) (F32.lit 2 1)) :=
  ⟨by decide, (claim_C1_shrink_dispatch (F32.lit 2 1) (by decide)).1⟩

/-- C2: `lossy_x` computes `offset = (r - 1.0) / 2.0` and returns
`(-offset, 1.0 + offset, 0.0, 1.0)`; `lossy_y` computes
`offset = (1.0 / r - 1.0) / 2.0` and returns
`(0.0, 1.0, -offset, 1.0 + offset)`; concretely
`Lossy(X).camera_offsets 2.0 = (-0.5, 1.5, 0.0, 1.0)` and
`Lossy(Y).camera_offsets 0.5 = (0.0, 1.0, -0.5, 1.5)`. -/
theorem claim_C2_lossy_formulas :
    (∀ r : F32, CameraNormalizeMode.lossy_x r =
      (F32.neg (F32.div (F32.sub r (F32.lit 1 1)) (F32.lit 2 1)),
       F32.add (F32.lit 1 1) (F32.div (F32.sub r (F32.lit 1 1)) (F32.lit 2 1)),
       F32.lit 0 1, F32.lit 1 1)) ∧
    (∀ r : F32, CameraNormalizeMode.lossy_y r =
      (F32.lit 0 1, F32.lit 1 1,
       F32.neg (F32.div (F32.sub (F32.div (F32.lit 1 1) r) (F32.lit 1 1)) (F32.lit 2 1)),
       F32.add (F32.lit 1 1)
         (F32.div (F32.sub (F32.div (F32.lit 1 1) r) (F32.lit 1 1)) (F32.lit 2 1)))) ∧
    CameraNormalizeMode.camera_offsets (.Lossy .X) (F32.lit 2 1) =
      (F32.lit (-1) 2, F32.lit 3 2, F32.lit 0 1, F32.lit 1 1) ∧
    CameraNormalizeMode.camera_offsets (.Lossy .Y) (F32.lit 1 2) =
      (F32.lit 0 1, F32.lit 1 1, F32.lit (-1) 2, F32.lit 3 2) :=
  ⟨fun _ => rfl, fun _ => rfl, by decide, by decide⟩

/-- C9: at aspect ratio exactly `1.0` all three policies return
numerically equal offsets `(0, 1, 0, 1)` under IEEE comparison, while
`Lossy(X)` produces `left = -0.0`: a different bit pattern (negative
zero) from the `0.0` of the direct unit-square branch of `Shrink`,
comparing equal nevertheless. -/
theorem claim_C9_negative_zero_equal :
    F32.beq4 (CameraNormalizeMode.camera_offsets (.Lossy .X) (F32.lit 1 1))
      (CameraNormalizeMode.camera_offsets .Shrink (F32.lit 1 1)) = true ∧
    F32.beq4 (CameraNormalizeMode.camera_offsets (.Lossy .Y) (F32.lit 1 1))
      (CameraNormalizeMode.camera_offsets .Shrink (F32.lit 1 1)) = true ∧
    F32.beq4 (CameraNormalizeMode.camera_offsets .Shrink (F32.lit 1 1))
      (F32.lit 0 1, F32.lit 1 1, F32.lit 0 1, F32.lit 1 1) = true ∧
    (CameraNormalizeMode.camera_offsets (.Lossy .X) (F32.lit 1 1)).1 = F32.zero true ∧
    (CameraNormalizeMode.camera_offsets .Shrink (F32.lit 1 1)).1 = F32.zero false ∧
    (CameraNormalizeMode.camera_offsets (.Lossy .X) (F32.lit 1 1)).1 ≠
      (CameraNormalizeMode.camera_offsets .Shrink (F32.lit 1 1)).1 ∧
    F32.beq (CameraNormalizeMode.camera_offsets (.Lossy .X) (F32.lit 1 1)).1
      (CameraNormalizeMode.camera_offsets .Shrink (F32.lit 1 1)).1 = true := by
  decide

/-- Rewriting the joined cameras twice with the same aspect ratio gives
the same storage as rewriting once. -/
theorem updateCameras_idem (a : F32) (cameras : Nat → Option Camera)
    (ortho_cameras : Nat → Option NormalOrthoCamera) :
    updateCameras a (updateCameras a cameras ortho_cameras) ortho_cameras =
      updateCameras a cameras ortho_cameras := by
  funext e
  simp only [updateCameras]
  cases hc : cameras e <;> cases ho : ortho_cameras e <;> simp

/-- An entity without an ortho-camera component keeps its camera across
one tick. -/
theorem run_preserves_unmanaged (sys : NormalOrthoCameraSystem)
    (dims : ScreenDimensions) (cameras : Nat → Option Camera)
    (ortho_cameras : Nat → Option NormalOrthoCamera) (e : Nat)
    (h : ortho_cameras e = none) :
    (sys.run dims cameras ortho_cameras).2 e = cameras e := by
  unfold NormalOrthoCameraSystem.run
  by_cases hb : F32.beq dims.aspect_ratio sys.aspect_ratio_cache = false
  · simp only [hb, if_pos, updateCameras, h]
    cases hc : cameras e <;> simp
  · simp [hb]

/-- C5: when the observed aspect ratio differs from the cache, one tick
stores the observed aspect ratio in the cache and, for every entity with
both a camera and an ortho-camera component, overwrites the projection
with the orthographic projection built from the offsets of that policy
at the observed aspect ratio, with near plane `0.1` and far plane
`1000.0`. -/
theorem claim_C5_recompute_tick (sys : NormalOrthoCameraSystem)
    (dims : ScreenDimensions) (cameras : Nat → Option Camera)
    (ortho_cameras : Nat → Option NormalOrthoCamera)
    (h : F32.beq dims.aspect_ratio sys.aspect_ratio_cache = false) :
    (sys.run dims cameras ortho_cameras).1.aspect_ratio_cache = dims.aspect_ratio ∧
    (∀ e camera oc, cameras e = some camera → ortho_cameras e = some oc →
      (sys.run dims cameras ortho_cameras).2 e = some
        { proj :=
          { left := (oc.camera_offsets dims.aspect_ratio).1,
            right := (oc.camera_offsets dims.aspect_ratio).2.1,
            bottom := (oc.camera_offsets dims.aspect_ratio).2.2.1,
            top := (oc.camera_offsets dims.aspect_ratio).2.2.2,
            near := F32.lit 1 10, far := F32.lit 1000 1 } }) := by
  constructor
  · simp [NormalOrthoCameraSystem.run, h]
  · intro e camera oc hc ho
    simp [NormalOrthoCameraSystem.run, h, updateCameras, hc, ho]

/-- Witness for C5: a 2:1 window against the default `0.0` cache. -/
theorem claim_C5_witness :
    F32.beq dimsW.aspect_ratio sysW.aspect_ratio_cache = false ∧
    (sysW.run dimsW camsW orthosW).1.aspect_ratio_cache = dimsW.aspect_ratio :=
  ⟨by decide, (claim_C5_recompute_tick sysW dimsW camsW orthosW (by decide)).1⟩

/-- C6: a tick that observes an aspect ratio IEEE-equal to the cache
returns the state and the camera storage unchanged, whatever the storages
hold; consequently running a tick twice with the same window dimensions
equals running it once. -/
theorem claim_C6_cache_idempotent :
    (∀ (sys : NormalOrthoCameraSystem) (dims : ScreenDimensions)
        (cameras : Nat → Option Camera) (ortho_cameras : Nat → Option NormalOrthoCamera),
      F32.beq dims.aspect_ratio sys.aspect_ratio_cache = true →
        sys.run dims cameras ortho_cameras = (sys, cameras)) ∧
    (∀ (sys : NormalOrthoCameraSystem) (dims : ScreenDimensions)
        (cameras : Nat → Option Camera) (ortho_cameras : Nat → Option NormalOrthoCamera),
      (sys.run dims cameras ortho_cameras).1.run dims
          (sys.run dims cameras ortho_cameras).2 ortho_cameras =
        sys.run dims cameras ortho_cameras) := by
  have fast : ∀ (sys : NormalOrthoCameraSystem) (dims : ScreenDimensions)
      (cameras : Nat → Option Camera) (ortho_cameras : Nat → Option NormalOrthoCamera),
      F32.beq dims.aspect_ratio sys.aspect_ratio_cache = true →
        sys.run dims cameras ortho_cameras = (sys, cameras) := by
    intro sys dims cameras ortho_cameras h
    simp [NormalOrthoCameraSystem.run, h]
  refine ⟨fast, ?_⟩
  intro sys dims cameras ortho_cameras
  by_cases hb : F32.beq dims.aspect_ratio sys.aspect_ratio_cache = false
  · have h1 : sys.run dims cameras ortho_cameras =
        (⟨dims.aspect_ratio⟩, updateCameras dims.aspect_ratio cameras ortho_cameras) := by
      simp [NormalOrthoCameraSystem.run, hb]
    rw [h1]
    by_cases hn : F32.isNan dims.aspect_ratio = true
    · have hb2 := F32.beq_of_nan dims.aspect_ratio dims.aspect_ratio hn
      simp [NormalOrthoCameraSystem.run, hb2, updateCameras_idem]
    · have hb2 := F32.beq_refl dims.aspect_ratio (by
        cases hx : F32.isNan dims.aspect_ratio
        · rfl
        · exact absurd hx hn)
      simp [NormalOrthoCameraSystem.run, hb2]
  · have hb2 : F32.beq dims.aspect_ratio sys.aspect_ratio_cache = true := by
      cases hx : F32.beq dims.aspect_ratio sys.aspect_ratio_cache
      · exact absurd hx hb
      · rfl
    rw [fast sys dims cameras ortho_cameras hb2]
    exact fast sys dims cameras ortho_cameras hb2

/-- Witness for C6: a 1:1 window against a cache already holding `1.0`. -/
theorem claim_C6_witness :
    F32.beq (ScreenDimensions.mk (F32.lit 1 1) (F32.lit 1 1)).aspect_ratio
      (NormalOrthoCameraSystem.mk (F32.lit 1 1)).aspect_ratio_cache = true ∧
    (NormalOrthoCameraSystem.mk (F32.lit 1 1)).run
        (ScreenDimensions.mk (F32.lit 1 1) (F32.lit 1 1)) camsW orthosW =
      (NormalOrthoCameraSystem.mk (F32.lit 1 1), camsW) :=
  ⟨by decide, claim_C6_cache_idempotent.1 (NormalOrthoCameraSystem.mk (F32.lit 1 1))
    (ScreenDimensions.mk (F32.lit 1 1) (F32.lit 1 1)) camsW orthosW (by decide)⟩

/-- C7: an entity with a camera but no ortho-camera component keeps its
camera unchanged across any number of ticks and any sequence of window
dimensions. -/
theorem claim_C7_opt_out (e : Nat)
    (ortho_cameras : Nat → Option NormalOrthoCamera)
    (h : ortho_cameras e = none) :
    ∀ (ticks : List ScreenDimensions) (sys : NormalOrthoCameraSystem)
      (cameras : Nat → Option Camera),
      (runTicks ticks sys cameras ortho_cameras).2 e = cameras e := by
  intro ticks
  induction ticks with
  | nil => intro sys cameras; rfl
  | cons d rest ih =>
    intro sys cameras
    calc (runTicks (d :: rest) sys cameras ortho_cameras).2 e
        = (sys.run d cameras ortho_cameras).2 e := ih _ _
      _ = cameras e := run_preserves_unmanaged sys d cameras ortho_cameras e h

/-- Witness for C7: entity 1 has a camera and no ortho-camera component,
and keeps it across two ticks with changing dimensions. -/
theorem claim_C7_witness :
    orthosW 1 = none ∧
    (runTicks [dimsW, ScreenDimensions.mk (F32.lit 3 1) (F32.lit 1 1)]
        sysW camsW orthosW).2 1 = camsW 1 :=
  ⟨by decide, claim_C7_opt_out 1 orthosW (by decide)
    [dimsW, ScreenDimensions.mk (F32.lit 3 1) (F32.lit 1 1)] sysW camsW⟩

/-- C10: a NaN aspect ratio is IEEE-unequal to every cache value, so the
tick always takes the recompute branch: the cache receives the NaN and
every entity with both components gets its projection rewritten, on every
such tick; the fast path is never taken. -/
theorem claim_C10_nan_always_recomputes (sys : NormalOrthoCameraSystem)
    (dims : ScreenDimensions) (cameras : Nat → Option Camera)
    (ortho_cameras : Nat → Option NormalOrthoCamera)
    (h : F32.isNan dims.aspect_ratio = true) :
    F32.beq dims.aspect_ratio sys.aspect_ratio_cache = false ∧
    (sys.run dims cameras ortho_cameras).1.aspect_ratio_cache = dims.aspect_ratio ∧
    (sys.run dims cameras ortho_cameras).2 =
      updateCameras dims.aspect_ratio cameras ortho_cameras ∧
    (∀ e camera oc, cameras e = some camera → ortho_cameras e = some oc →
      (sys.run dims cameras ortho_cameras).2 e = some
        { proj :=
          { left := (oc.camera_offsets dims.aspect_ratio).1,
            right := (oc.camera_offsets dims.aspect_ratio).2.1,
            bottom := (oc.camera_offsets dims.aspect_ratio).2.2.1,
            top := (oc.camera_offsets dims.aspect_ratio).2.2.2,
            near := F32.lit 1 10, far := F32.lit 1000 1 } }) := by
  have hb := F32.beq_of_nan dims.aspect_ratio sys.aspect_ratio_cache h
  refine ⟨hb, ?_, ?_, ?_⟩
  · simp [NormalOrthoCameraSystem.run, hb]
  · simp [NormalOrthoCameraSystem.run, hb]
  · intro e camera oc hc ho
    simp [NormalOrthoCameraSystem.run, hb, updateCameras, hc, ho]

/-- Witness for C10: a 0-by-0 window yields a NaN aspect ratio. -/
theorem claim_C10_witness :
    F32.isNan dimsNanW.aspect_ratio = true ∧
    F32.beq dimsNanW.aspect_ratio sysW.aspect_ratio_cache = false :=
  ⟨by decide, (claim_C10_nan_always_recomputes sysW dimsNanW camsW orthosW (by decide)).1⟩

/-- Counterexample to C3 as stated over `f32`: at the smallest positive
subnormal aspect ratio `r = 2 ^ (-149)` (which satisfies `r > 0`), the
`Lossy(X)` policy computes `offset = -0.5`, so `left` and `right` are
both `0.5`: the bound `left < right` fails in the arithmetic the code
actually performs. -/
theorem claim_C3_counterexample :
    F32.bgt (⟨false, 0, 1⟩ : F32) (F32.zero false) = true ∧
    (CameraNormalizeMode.camera_offsets (.Lossy .X) ⟨false, 0, 1⟩).1 =
      (CameraNormalizeMode.camera_offsets (.Lossy .X) ⟨false, 0, 1⟩).2.1 ∧
    (CameraNormalizeMode.camera_offsets (.Lossy .X) ⟨false, 0, 1⟩).1 = F32.lit 1 2 ∧
    F32.blt (CameraNormalizeMode.camera_offsets (.Lossy .X) ⟨false, 0, 1⟩).1
      (CameraNormalizeMode.camera_offsets (.Lossy .X) ⟨false, 0, 1⟩).2.1 = false := by
  decide

/-- C3 amended: over exact rational arithmetic the invariant holds for
every aspect ratio `r > 0` and every policy: `left < right`,
`bottom < top`, and one axis spans exactly `[0, 1]` while the other is
symmetric about `1/2` (its endpoints sum to `1`). -/
theorem claim_C3_exact_invariant (r : ℚ) (h : 0 < r) (m : CameraNormalizeMode) :
    (camera_offsets_exact m r).1 < (camera_offsets_exact m r).2.1 ∧
    (camera_offsets_exact m r).2.2.1 < (camera_offsets_exact m r).2.2.2 ∧
    (((camera_offsets_exact m r).2.2.1 = 0 ∧ (camera_offsets_exact m r).2.2.2 = 1 ∧
      (camera_offsets_exact m r).1 + (camera_offsets_exact m r).2.1 = 1) ∨
     ((camera_offsets_exact m r).1 = 0 ∧ (camera_offsets_exact m r).2.1 = 1 ∧
      (camera_offsets_exact m r).2.2.1 + (camera_offsets_exact m r).2.2.2 = 1)) := by
  have hx : ∀ s : ℚ, 0 < s →
      (lossy_x_exact s).1 < (lossy_x_exact s).2.1 ∧
      (lossy_x_exact s).2.2.1 < (lossy_x_exact s).2.2.2 ∧
      (lossy_x_exact s).2.2.1 = 0 ∧ (lossy_x_exact s).2.2.2 = 1 ∧
      (lossy_x_exact s).1 + (lossy_x_exact s).2.1 = 1 := by
    intro s hs
    refine ⟨by simp only [lossy_x_exact]; linarith, by norm_num [lossy_x_exact],
      rfl, rfl, by simp only [lossy_x_exact]; ring⟩
  have hy : ∀ s : ℚ, 0 < s →
      (lossy_y_exact s).1 < (lossy_y_exact s).2.1 ∧
      (lossy_y_exact s).2.2.1 < (lossy_y_exact s).2.2.2 ∧
      (lossy_y_exact s).1 = 0 ∧ (lossy_y_exact s).2.1 = 1 ∧
      (lossy_y_exact s).2.2.1 + (lossy_y_exact s).2.2.2 = 1 := by
    intro s hs
    have hinv : 0 < 1 / s := by positivity
    refine ⟨by norm_num [lossy_y_exact], by simp only [lossy_y_exact]; linarith,
      rfl, rfl, by simp only [lossy_y_exact]; ring⟩
  match m with
  | .Lossy .X =>
    obtain ⟨h1, h2, h3, h4, h5⟩ := hx r h
    exact ⟨h1, h2, Or.inl ⟨h3, h4, h5⟩⟩
  | .Lossy .Y =>
    obtain ⟨h1, h2, h3, h4, h5⟩ := hy r h
    exact ⟨h1, h2, Or.inr ⟨h3, h4, h5⟩⟩
  | .Shrink =>
    by_cases hgt : 1 < r
    · have he : camera_offsets_exact .Shrink r = lossy_x_exact r := by
        simp [camera_offsets_exact, hgt]
      rw [he]
      obtain ⟨h1, h2, h3, h4, h5⟩ := hx r h
      exact ⟨h1, h2, Or.inl ⟨h3, h4, h5⟩⟩
    · by_cases hlt : r < 1
      · have he : camera_offsets_exact .Shrink r = lossy_y_exact r := by
          simp [camera_offsets_exact, hgt, hlt]
        rw [he]
        obtain ⟨h1, h2, h3, h4, h5⟩ := hy r h
        exact ⟨h1, h2, Or.inr ⟨h3, h4, h5⟩⟩
      · have he : camera_offsets_exact .Shrink r = (0, 1, 0, 1) := by
          simp [camera_offsets_exact, hgt, hlt]
        rw [he]
        norm_num

/-- Witness for the amended C3 at the concrete aspect ratio `2`. -/
theorem claim_C3_witness :
    (0 : ℚ) < 2 ∧
    ((camera_offsets_exact (.Lossy .X) 2).1 < (camera_offsets_exact (.Lossy .X) 2).2.1 ∧
     (camera_offsets_exact (.Lossy .X) 2).2.2.1 < (camera_offsets_exact (.Lossy .X) 2).2.2.2 ∧
     (((camera_offsets_exact (.Lossy .X) 2).2.2.1 = 0 ∧
       (camera_offsets_exact (.Lossy .X) 2).2.2.2 = 1 ∧
       (camera_offsets_exact (.Lossy .X) 2).1 + (camera_offsets_exact (.Lossy .X) 2).2.1 = 1) ∨
      ((camera_offsets_exact (.Lossy .X) 2).1 = 0 ∧
       (camera_offsets_exact (.Lossy .X) 2).2.1 = 1 ∧
       (camera_offsets_exact (.Lossy .X) 2).2.2.1 +
         (camera_offsets_exact (.Lossy .X) 2).2.2.2 = 1))) :=
  ⟨by norm_num, claim_C3_exact_invariant 2 (by norm_num) (.Lossy .X)⟩

/-- Counterexample to C4 as stated over `f32`: at the aspect ratio
`r = 1 + 2 ^ (-23)` (the successor of `1.0`, so `r > 0`), `Lossy(X)`
computes `offset = 2 ^ (-24)` and `right = 1.0 + offset` rounds to `1.0`,
so `right - left` is `1 + 2 ^ (-24)` exactly and rounds to `1.0` when
subtracted in `f32`: it differs from `r` under IEEE comparison and as an
exact value. -/
theorem claim_C4_counterexample :
    F32.bgt (⟨false, 127, 1⟩ : F32) (F32.zero false) = true ∧
    F32.beq
      (F32.sub (CameraNormalizeMode.camera_offsets (.Lossy .X) ⟨false, 127, 1⟩).2.1
        (CameraNormalizeMode.camera_offsets (.Lossy .X) ⟨false, 127, 1⟩).1)
      ⟨false, 127, 1⟩ = false ∧
    F32.Exact.eqE
      (F32.Exact.addE
        (F32.toExact (CameraNormalizeMode.camera_offsets (.Lossy .X) ⟨false, 127, 1⟩).2.1)
        (F32.toExact (F32.neg (CameraNormalizeMode.camera_offsets (.Lossy .X) ⟨false, 127, 1⟩).1)))
      (F32.toExact (⟨false, 127, 1⟩ : F32)) = false := by
  decide

/-- C4 amended: the algebraic identities hold over exact rational
arithmetic for every `r > 0` (`right - left = r`, `left + right = 1` for
the X-stretch; `bottom + top = 1` for the Y-stretch), while the pinned
axes are exact even in `f32`: `Lossy(X)` always returns `bottom = 0.0`
and `top = 1.0`, and `Lossy(Y)` always returns `left = 0.0` and
`right = 1.0`. -/
theorem claim_C4_exact_identities (r : ℚ) (_h : 0 < r) :
    ((lossy_x_exact r).2.1 - (lossy_x_exact r).1 = r ∧
     (lossy_x_exact r).1 + (lossy_x_exact r).2.1 = 1 ∧
     (lossy_x_exact r).2.2.1 = 0 ∧ (lossy_x_exact r).2.2.2 = 1 ∧
     (lossy_y_exact r).2.2.1 + (lossy_y_exact r).2.2.2 = 1 ∧
     (lossy_y_exact r).1 = 0 ∧ (lossy_y_exact r).2.1 = 1) ∧
    (∀ s : F32, (CameraNormalizeMode.camera_offsets (.Lossy .X) s).2.2.1 = F32.lit 0 1 ∧
      (CameraNormalizeMode.camera_offsets (.Lossy .X) s).2.2.2 = F32.lit 1 1 ∧
      (CameraNormalizeMode.camera_offsets (.Lossy .Y) s).1 = F32.lit 0 1 ∧
      (CameraNormalizeMode.camera_offsets (.Lossy .Y) s).2.1 = F32.lit 1 1) := by
  constructor
  · refine ⟨?_, ?_, rfl, rfl, ?_, rfl, rfl⟩
    · simp only [lossy_x_exact]; ring
    · simp only [lossy_x_exact]; ring
    · simp only [lossy_y_exact]; ring
  · intro s
    exact ⟨rfl, rfl, rfl, rfl⟩

/-- Witness for the amended C4 at the concrete aspect ratio `2`. -/
theorem claim_C4_witness :
    (0 : ℚ) < 2 ∧
    (lossy_x_exact 2).2.1 - (lossy_x_exact 2).1 = 2 ∧
    (lossy_x_exact 2).1 + (lossy_x_exact 2).2.1 = 1 :=
  ⟨by norm_num, ((claim_C4_exact_identities 2 (by norm_num)).1).1,
    ((claim_C4_exact_identities 2 (by norm_num)).1).2.1⟩

/-- C8: `camera_offsets` is total: for every mode and every `f32` input
it returns a 4-tuple of offsets and never an error; degenerate inputs
flow through the arithmetic: a zero aspect ratio yields non-finite
(infinite) vertical bounds under `Shrink`, and a negative aspect ratio
yields a negative offset (so an inverted vertical axis) rather than a
rejection. -/
theorem claim_C8_total_no_guards :
    (∀ (m : CameraNormalizeMode) (r : F32), ∃ a b c d : F32,
      CameraNormalizeMode.camera_offsets m r = (a, b, c, d)) ∧
    CameraNormalizeMode.camera_offsets .Shrink (F32.zero false) =
      (F32.lit 0 1, F32.lit 1 1, F32.infty true, F32.infty false) ∧
    F32.isFinite (CameraNormalizeMode.camera_offsets .Shrink (F32.zero false)).2.2.2 = false ∧
    CameraNormalizeMode.camera_offsets .Shrink (F32.lit (-1) 1) =
      (F32.lit 0 1, F32.lit 1 1, F32.lit 1 1, F32.zero false) ∧
    F32.blt
      (F32.div (F32.sub (F32.div (F32.lit 1 1) (F32.lit (-1) 1)) (F32.lit 1 1)) (F32.lit 2 1))
      (F32.zero false) = true :=
  ⟨fun m r => ⟨(CameraNormalizeMode.camera_offsets m r).1,
    (CameraNormalizeMode.camera_offsets m r).2.1,
    (CameraNormalizeMode.camera_offsets m r).2.2.1,
    (CameraNormalizeMode.camera_offsets m r).2.2.2, rfl⟩,
   by decide, by decide, by decide, by decide⟩

end OrthoCam
